import Mathlib

/-!
Verification of the arxiv crawler core (arxiv_crawler.py, paper.py).

Dates are modelled as `Int` day ordinals (Python `datetime` restricted to
day granularity: `+ timedelta(days = n)` is `+ n`, comparison is `≤`).
Timestamps (`update_time`) are `Int` as well.  The announcement-day rule
`next_arxiv_update_day` lives in a module outside the crawler core and is
kept as an uninterpreted function parameter `nextDay : Int → Int`
throughout, exactly as the resolver claims require.
-/

/-! ## String utilities (Python `in`, `str.find`, slicing, SQLite LIKE) -/

/-- Lowercase an ASCII letter, leave every other character unchanged.
SQLite's `LIKE` is case-insensitive exactly on the ASCII range. -/
def lowerAscii (c : Char) : Char :=
  if 'A' ≤ c ∧ c ≤ 'Z' then Char.ofNat (c.toNat + 32) else c

/-- Whether `needle` occurs at the head of `hay`. -/
def isLeadOf : List Char → List Char → Bool
  | [], _ => true
  | _ :: _, [] => false
  | a :: as, b :: bs => a = b && isLeadOf as bs

/-- Whether `needle` occurs anywhere in `hay` (Python `needle in hay`). -/
def containsSub (hay needle : List Char) : Bool :=
  match hay with
  | [] => needle.isEmpty
  | _ :: t => isLeadOf needle hay || containsSub t needle

/-- First index at which `needle` occurs in `hay`, or `-1` (Python `str.find`,
search starting at index 0). -/
def subFind (hay needle : List Char) : Int :=
  match hay with
  | [] => if needle.isEmpty then 0 else -1
  | _ :: t =>
    if isLeadOf needle hay then 0
    else
      let r := subFind t needle
      if r < 0 then -1 else r + 1

/-- Python `hay.find(needle, start)` with an `Int` start index: a negative
start counts from the end of the string, clamped at 0. -/
def pyFind (hay needle : List Char) (start : Int) : Int :=
  let n : Int := hay.length
  let st := (if start < 0 then max (n + start) 0 else start).toNat
  let r := subFind (hay.drop st) needle
  if r < 0 then -1 else r + st

/-- Python slicing `s[a:b]` with `Int` indices: negative indices count from
the end, then both bounds are clamped into `[0, length]`. -/
def pySlice (s : List Char) (a b : Int) : List Char :=
  let n : Int := s.length
  let a2 := (max (if a < 0 then n + a else a) 0).toNat
  let b2 := (min (max (if b < 0 then n + b else b) 0) n).toNat
  (s.take b2).drop a2

/-- SQLite `text LIKE '%kw%'`: case-insensitive (ASCII) substring test.
Models the `{field} LIKE ?` conditions built by
`PaperDatabase.search_papers_by_keywords` (paper.py lines 351-374). -/
def likeMatch (text kw : String) : Bool :=
  containsSub (text.toList.map lowerAscii) (kw.toList.map lowerAscii)

/-! ## Calendar: Python `datetime.date.toordinal` for concrete dates -/

/-- Proleptic Gregorian leap year. -/
def isLeapYear (y : Nat) : Bool :=
  (y % 4 = 0 && y % 100 ≠ 0) || y % 400 = 0

/-- Number of days in month `m` of year `y`. -/
def daysInMonth (y m : Nat) : Nat :=
  if m = 2 then (if isLeapYear y then 29 else 28)
  else if m = 4 ∨ m = 6 ∨ m = 9 ∨ m = 11 then 30
  else 31

/-- Days of year `y` strictly before month `m`. -/
def daysBeforeMonth (y m : Nat) : Nat :=
  (List.range (m - 1)).foldl (fun acc i => acc + daysInMonth y (i + 1)) 0

/-- Python `date(y, m, d).toordinal()`: day 1 is 0001-01-01. -/
def dateOrdinal (y m d : Nat) : Int :=
  Int.ofNat (365 * (y - 1) + (y - 1) / 4 - (y - 1) / 100 + (y - 1) / 400
    + daysBeforeMonth y m + d)

/-! ## Data model (paper.py `Paper` dataclass, `papers` table row) -/

/-- The `Paper` dataclass of paper.py (lines 24-35).  `first_submitted_date`
is a day ordinal; `first_announced_date` is `none` until resolved. -/
structure Paper where
  first_submitted_date : Int
  title : String
  categories : List String
  url : String
  authors : String
  abstract : String
  comments : String
  title_translated : Option String := none
  abstract_translated : Option String := none
  first_announced_date : Option Int := none
deriving DecidableEq, Repr

/-- One row of the `papers` table (paper.py lines 114-132): the persisted
fields plus the `update_time` timestamp; `categories` is stored
comma-joined, `first_announced_date` is NOT NULL. -/
structure Row where
  url : String
  authors : String
  title_translated : Option String
  first_submitted_date : Int
  first_announced_date : Int
  update_time : Int
  categories : String
  title : String
  comments : String
  abstract : String
  abstract_translated : Option String
deriving DecidableEq, Repr

/-- Whether some row of the store has the given URL
(the `SELECT * FROM papers WHERE url = ?` probe of `count_new_papers`). -/
def url_in_db (store : List Row) (u : String) : Bool :=
  store.any (fun r => r.url == u)

/-! ## PaperDatabase.count_new_papers (paper.py lines 162-176) -/

/-- PaperDatabase.count_new_papers: walk the candidate papers in order,
increment the count while the URL is absent from the store, and `break`
at the first URL that is already present. -/
def count_new_papers (store : List Row) (papers : List Paper) : Nat :=
  match papers with
  | [] => 0
  | p :: rest =>
    if url_in_db store p.url then 0
    else count_new_papers store rest + 1

/-! ## PaperDatabase.add_papers (paper.py lines 134-160) -/

/-- The tuple built for one paper by `add_papers` (paper.py lines 137-152):
all persisted fields plus `update_time = datetime.now(UTC)`.  Reached only
after the assertion, so `first_announced_date` is known non-null. -/
def paper_to_row (p : Paper) (now : Int) : Row :=
  { url := p.url
    authors := p.authors
    title_translated := p.title_translated
    first_submitted_date := p.first_submitted_date
    first_announced_date := p.first_announced_date.getD 0
    update_time := now
    categories := String.intercalate "," p.categories
    title := p.title
    comments := p.comments
    abstract := p.abstract
    abstract_translated := p.abstract_translated }

/-- SQLite `INSERT OR REPLACE` keyed by the `url` primary key: the row with
the same URL (if any) is removed and the new row inserted. -/
def upsert_row (s : List Row) (r : Row) : List Row :=
  s.filter (fun x => x.url != r.url) ++ [r]

/-- PaperDatabase.add_papers: `assert all(paper.first_announced_date is not
None)` runs before the transaction; on success every paper is
insert-or-replaced by URL via `executemany`, in list order.  An
`Except.error` models the assertion failure raised before any write. -/
def add_papers (store : List Row) (papers : List Paper) (now : Int) :
    Except String (List Row) :=
  if papers.all (fun p => p.first_announced_date.isSome) then
    Except.ok (papers.foldl (fun s p => upsert_row s (paper_to_row p now)) store)
  else
    Except.error "AssertionError"

/-- The store state after a call to `add_papers`: the assertion fires before
the `with self.conn` block, so a failed call leaves the store unchanged. -/
def run_add_papers (store : List Row) (papers : List Paper) (now : Int) :
    List Row :=
  match add_papers store papers now with
  | Except.ok s => s
  | Except.error _ => store

/-! ## ArxivScraper.process_papers (arxiv_crawler.py lines 529-544) -/

/-- The loop of `process_papers` (lines 537-543), translated from the code:
`announced_date` is the running value; for each paper (already in processing
order) the candidate `next_arxiv_update_day(first_submitted_date + 1 day)`
is computed, `announced_date` advances when it is smaller than the
candidate, and the paper's `first_announced_date` is set to the running
value.  `nextDay` is the uninterpreted announcement-day rule. -/
def resolveRecs (nextDay : Int → Int) : Int → List Paper → List Paper
  | _, [] => []
  | announced, p :: rest =>
    let cand := nextDay (p.first_submitted_date + 1)
    let announced2 := if announced < cand then cand else announced
    { p with first_announced_date := some announced2 }
      :: resolveRecs nextDay announced2 rest

/-- ArxivScraper.process_papers: initialize the running date to
`next_arxiv_update_day(self.first_announced_date)` and walk
`reversed(self.papers)`; returns the papers in processing order with their
assigned announcement dates. -/
def process_papers (nextDay : Int → Int) (firstAnnounced : Int)
    (papers : List Paper) : List Paper :=
  resolveRecs nextDay (nextDay firstAnnounced) papers.reverse

/-- Modelled from the spec (§4.5 AnnouncementResolver), for comparison with
`process_papers`: keep a running `floor` initialized to
`next_announcement_day(first_possible_day)`; for each record in ascending
submission order compute `candidate = next_announcement_day(submitted + 1)`;
if `candidate > floor` advance the floor to the candidate; assign the
record's first-announced-date to the current floor. -/
def resolve_floor_go (nextDay : Int → Int) : Int → List Paper → List Paper
  | _, [] => []
  | floor, rec :: recs =>
    let cand := nextDay (rec.first_submitted_date + 1)
    let floor2 := if cand > floor then cand else floor
    { rec with first_announced_date := some floor2 }
      :: resolve_floor_go nextDay floor2 recs

/-- Modelled from the spec: the whole floor algorithm, taking the records
already in ascending submission-date order (the processing order). -/
def resolve_floor (nextDay : Int → Int) (firstPossible : Int)
    (recs : List Paper) : List Paper :=
  resolve_floor_go nextDay (nextDay firstPossible) recs

/-! ## PaperDatabase.search_papers_by_keywords (paper.py lines 320-397) -/

/-- One keyword condition `(title LIKE ? OR abstract LIKE ?)` of the
search query (paper.py lines 353-358 and 366-371). -/
def kw_in_title_or_abstract (r : Row) (kw : String) : Bool :=
  likeMatch r.title kw || likeMatch r.abstract kw

/-- The WHERE clause built by `search_papers_by_keywords`: every required
keyword matches, every non-empty optional group has a matching member
(empty groups are skipped by the `if keyword_group:` guard), and the
announcement date satisfies whichever of the two bounds was supplied. -/
def row_matches (required : List String) (optional : List (List String))
    (date_from date_until : Option Int) (r : Row) : Bool :=
  required.all (kw_in_title_or_abstract r)
    && optional.all (fun g => g.isEmpty || g.any (kw_in_title_or_abstract r))
    && (match date_from with
        | none => true
        | some d => decide (d ≤ r.first_announced_date))
    && (match date_until with
        | none => true
        | some d => decide (r.first_announced_date ≤ d))

/-- The `ORDER BY first_announced_date DESC` ordering. -/
def byAnnouncedDesc (a b : Row) : Prop :=
  b.first_announced_date ≤ a.first_announced_date

instance : DecidableRel byAnnouncedDesc := fun a b =>
  inferInstanceAs (Decidable (b.first_announced_date ≤ a.first_announced_date))

instance : IsTotal Row byAnnouncedDesc :=
  ⟨fun a b => le_total b.first_announced_date a.first_announced_date⟩

instance : IsTrans Row byAnnouncedDesc :=
  ⟨fun _ _ _ h1 h2 => le_trans h2 h1⟩

/-- PaperDatabase.search_papers_by_keywords: `SELECT * FROM papers WHERE
<conditions> ORDER BY first_announced_date DESC` over the store. -/
def search_papers_by_keywords (store : List Row) (required : List String)
    (optional : List (List String)) (date_from date_until : Option Int) :
    List Row :=
  List.insertionSort byAnnouncedDesc
    (store.filter (row_matches required optional date_from date_until))

/-- A stored record whose title matches required "agent" and optional
"LLM" (spec §8 boolean-filter scenario). -/
def agent_row : Row :=
  { url := "https://arxiv.org/abs/2501.00001"
    authors := "A. Author"
    title_translated := none
    first_submitted_date := 19
    first_announced_date := 20
    update_time := 100
    categories := "cs.AI,cs.CL"
    title := "An LLM Agent Framework"
    comments := "8 pages"
    abstract := "A framework for tool use."
    abstract_translated := none }

/-- A stored record whose text mentions only "GPT" and never "agent". -/
def gpt_row : Row :=
  { url := "https://arxiv.org/abs/2501.00002"
    authors := "B. Author"
    title_translated := none
    first_submitted_date := 18
    first_announced_date := 19
    update_time := 90
    categories := "cs.LG"
    title := "Scaling Laws"
    comments := "No comments"
    abstract := "We study GPT models only."
    abstract_translated := none }

/-! ## PaperDatabase.newest_update_time (paper.py lines 286-300) -/

/-- SQL aggregate `MAX` over a list, `none` on the empty list (SQL NULL). -/
def listMax? : List Int → Option Int
  | [] => none
  | a :: t =>
    match listMax? t with
    | none => some a
    | some m => some (if a ≤ m then m else a)

/-- PaperDatabase.newest_update_time: `SELECT MAX(update_time) FROM papers
WHERE first_announced_date = (SELECT MAX(first_announced_date) FROM
papers)`.  On an empty table both aggregates are NULL and the Python code
then calls `.split` on `None`, raising — modelled by `none`. -/
def newest_update_time (store : List Row) : Option Int :=
  match listMax? (store.map (fun r => r.first_announced_date)) with
  | none => none
  | some m =>
    listMax? ((store.filter
      (fun r => r.first_announced_date == m)).map (fun r => r.update_time))

/-- The first steps of ArxivScraper.fetch_update (arxiv_crawler.py lines
495-499): `last_update = self.paper_db.newest_update_time()` followed by
`next_arxiv_update_day(last_update)`; on an empty store the first call
raises, so no search-from date is ever produced. -/
def fetch_update_search_from (nextDay : Int → Int) (store : List Row) :
    Option Int :=
  (newest_update_time store).map nextDay

/-! ## ArxivScraper.request and fetch_all (arxiv_crawler.py 415-437, 439-481) -/

/-- The body of the retry loop `while error <= 3` of `ArxivScraper.request`
(and `request_api`): attempt `i` is tried while fuel remains; a success
returns immediately, a transport failure consumes one unit.  `tries k` is
the outcome of the k-th attempt of this page request. -/
def request_go {α : Type} (tries : Nat → Option α) : Nat → Nat → Option α
  | _, 0 => none
  | i, fuel + 1 =>
    match tries i with
    | some v => some v
    | none => request_go tries (i + 1) fuel

/-- ArxivScraper.request: up to 4 attempts (the initial one plus 3
retries); `None` is returned once the budget is exhausted. -/
def request {α : Type} (tries : Nat → Option α) : Option α :=
  request_go tries 0 4

/-- The page offsets `range(self.step, self.total, self.step)` used by
`fetch_all` (line 477). -/
def page_starts (total step : Nat) : List Nat :=
  (List.range ((total - 1) / step)).map (fun i => (i + 1) * step)

/-- ArxivScraper.fetch_all page collection (lines 439-481): the first page
is requested synchronously and a `None` result aborts the whole method
(`self.console.log("... aborting..."); return`), collecting nothing; for
every remaining page offset the `wrapper` turns a failed request into `[]`
and the gather continues.  `fetchPage start` is the request-plus-parse
outcome for the page at `start`. -/
def fetch_all (fetchPage : Nat → Option (List Paper)) (total step : Nat) :
    Option (List Paper) :=
  match fetchPage 0 with
  | none => none
  | some first =>
    some (first
      ++ ((page_starts total step).map (fun s => (fetchPage s).getD [])).flatten)

/-! ## ArxivScraper.parse_api_xml and fetch_all_api (lines 167-257, 260-357) -/

/-- One `<entry>` of the arXiv API response, as the fields `parse_api_xml`
extracts them: optional pieces are `none` when the element is missing. -/
structure ApiEntry where
  url : String
  title : String
  abstract : String
  authors : List String
  published : Option Int
  categories : List String
  comments : Option String
deriving DecidableEq, Repr

/-- The per-entry body of `parse_api_xml` (lines 192-248): a missing
published date falls back to `datetime.now()`; line 247 then sets
`first_announced_date` equal to the submission date — the announcement-day
rule is never consulted on this path. -/
def parse_api_entry (now : Int) (e : ApiEntry) : Paper :=
  let sub := e.published.getD now
  { first_submitted_date := sub
    title := e.title
    categories := e.categories
    url := e.url
    authors := if e.authors.isEmpty then "No authors"
               else String.intercalate ", " e.authors
    abstract := e.abstract
    comments := e.comments.getD "No comments"
    first_announced_date := some sub }

/-- ArxivScraper.parse_api_xml over the entry list of one XML batch. -/
def parse_api_xml (now : Int) (entries : List ApiEntry) : List Paper :=
  entries.map (parse_api_entry now)

/-- The cs-only hard filter (lines 356 and 484): keep a paper only when its
category list is non-empty and every tag starts with "cs.". -/
def cs_only (p : Paper) : Bool :=
  !p.categories.isEmpty
    && p.categories.all (fun cat => isLeadOf ("cs.".toList) cat.toList)

/-- The effective lower bound of `fetch_all_api` (lines 272-273): a
single-day window is widened by `PREV_DAY = 4` days. -/
def effective_date_from (date_from date_until : Int) : Int :=
  if date_from = date_until then date_until - 4 else date_from

/-- What `fetch_all_api` hands to the store and what it keeps in memory. -/
structure ApiFetchResult where
  persisted : List Paper
  papers : List Paper
deriving DecidableEq, Repr

/-- ArxivScraper.fetch_all_api (lines 260-357), date handling and
post-processing: reject windows over 31 days before any fetch; widen a
single-day window's lower bound by 4 days; filter the fetched papers with
the *widened* local `date_from` (line 342); hand the filtered list to
`add_papers` (line 348); only afterwards restrict the in-memory list to
papers whose categories are non-empty and all start with "cs." (line 356).
`fetched` is the accumulated `self.papers` after the paging loop. -/
def fetch_all_api (fetched : List Paper) (date_from date_until : Int) :
    Option ApiFetchResult :=
  if date_until - date_from > 31 then none
  else
    let d2 := effective_date_from date_from date_until
    let filtered := fetched.filter (fun p =>
      decide (d2 ≤ p.first_submitted_date)
        && decide (p.first_submitted_date ≤ date_until))
    some { persisted := filtered, papers := filtered.filter cs_only }

/-! ## ArxivScraper.parse_search_html (lines 584-718) -/

/-- One `<li class="arxiv-result">` of a search page, as the per-entry loop
extracts its raw pieces; `dateText` is `date_tag.get_text(strip=True)`. -/
structure SearchEntry where
  url : String
  title : String
  dateText : String
  categories : List String
  authors : String
  abstract : String
  comments : String
deriving DecidableEq, Repr

/-- The date-fragment slicing of `parse_search_html` (lines 681-690): with
a "v1" marker, `date[date.find("v1submitted") + 12 : date.find(";", v1)]`;
otherwise `date[date.find("Submitted") + 9 : date.find(";", submit_date)]`,
with Python `find`/slicing semantics (including the `-1` failure value). -/
def extract_date_text (date : String) : String :=
  let cs := date.toList
  if containsSub cs ("v1".toList) then
    let v1 := pyFind cs ("v1submitted".toList) 0
    String.mk (pySlice cs (v1 + 12) (pyFind cs ([';']) v1))
  else
    let sd := pyFind cs ("Submitted".toList) 0
    String.mk (pySlice cs (sd + 9) (pyFind cs ([';']) sd))

/-- Month-name lookup of `strptime`'s `%B` (case-insensitive). -/
def monthNumber (s : String) : Option Nat :=
  let t := String.mk (s.toList.map lowerAscii)
  if t = "january" then some 1 else if t = "february" then some 2
  else if t = "march" then some 3 else if t = "april" then some 4
  else if t = "may" then some 5 else if t = "june" then some 6
  else if t = "july" then some 7 else if t = "august" then some 8
  else if t = "september" then some 9 else if t = "october" then some 10
  else if t = "november" then some 11 else if t = "december" then some 12
  else none

/-- Digit string to number (the text is already checked to be digits). -/
def natOfDigits (l : List Char) : Nat :=
  l.foldl (fun acc c => acc * 10 + (c.toNat - 48)) 0

/-- Python `datetime.strptime(s, "%d %B, %Y")` at day granularity: a day
number, one space, a month name, ", ", a year, with calendar validation;
`none` models the `ValueError` it raises otherwise. -/
def strptime_d_B_Y (s : String) : Option Int :=
  let cs := s.toList
  let ds := cs.takeWhile (fun c => c.isDigit)
  match cs.drop ds.length with
  | ' ' :: rest2 =>
    let ms := rest2.takeWhile (fun c => c ≠ ',')
    match rest2.drop ms.length with
    | ',' :: ' ' :: ys =>
      if ds.isEmpty || ys.isEmpty || !ys.all (fun c => c.isDigit) then none
      else
        match monthNumber (String.mk ms) with
        | none => none
        | some m =>
          let d := natOfDigits ds
          let y := natOfDigits ys
          if 1 ≤ d ∧ d ≤ daysInMonth y m ∧ 1 ≤ y ∧ y ≤ 9999 then
            some (dateOrdinal y m d)
          else none
    | _ => none
  | _ => none

/-- The `Paper(...)` constructed for one search-result entry (lines
707-717), given its parsed submission date. -/
def entry_to_paper (e : SearchEntry) (sub : Int) : Paper :=
  { first_submitted_date := sub
    title := e.title
    categories := e.categories
    url := e.url
    authors := e.authors
    abstract := e.abstract
    comments := e.comments }

/-- The per-entry loop of `parse_search_html` (lines 668-718): entries are
processed sequentially and `datetime.strptime` sits inside the loop with no
surrounding try/except, so a date fragment it cannot parse raises
`ValueError` out of the whole call; `Except.error` models that abort. -/
def parse_search_html (entries : List SearchEntry) : Except String (List Paper) :=
  match entries with
  | [] => Except.ok []
  | e :: rest =>
    match strptime_d_B_Y (extract_date_text e.dateText) with
    | none => Except.error "ValueError"
    | some d =>
      match parse_search_html rest with
      | Except.ok ps => Except.ok (entry_to_paper e d :: ps)
      | Except.error msg => Except.error msg

/-! ## Concrete fixtures used by witnesses and counterexamples -/

/-- A minimal paper with the given URL. -/
def mkPaper (u : String) : Paper :=
  { first_submitted_date := 0
    title := "t"
    categories := ["cs.AI"]
    url := u
    authors := "a"
    abstract := "b"
    comments := "c" }

/-- A paper submitted on 2025-07-29, inside the 4-day look-back margin of a
2025-08-01 single-day window but before the requested day itself. -/
def lookback_paper : Paper :=
  { first_submitted_date := dateOrdinal 2025 7 29
    title := "Lookback Paper"
    categories := ["cs.AI"]
    url := "https://arxiv.org/abs/2507.12345"
    authors := "L. Author"
    abstract := "In the margin."
    comments := "No comments"
    first_announced_date := some (dateOrdinal 2025 7 29) }

/-- A transport whose page at offset 0 fails on every attempt while every
other page succeeds at the first attempt. -/
def failing_transport : Nat → Nat → Option (List Paper)
  | 0, _ => none
  | _, _ => some [mkPaper "https://arxiv.org/abs/2408.00042"]

/-- A transport that always succeeds with an empty page. -/
def ok_transport : Nat → Nat → Option (List Paper) :=
  fun _ _ => some []

/-- A search-result entry whose date fragment parses (simple layout). -/
def good_entry : SearchEntry :=
  { url := "https://arxiv.org/abs/2408.00001"
    title := "A Good Paper"
    dateText := "Submitted8 August, 2024; originally announced August 2024."
    categories := ["cs.AI"]
    authors := "C. Author"
    abstract := "Fine."
    comments := "No comments" }

/-- A search-result entry whose date fragment fits neither layout. -/
def bad_entry : SearchEntry :=
  { url := "https://arxiv.org/abs/2408.00002"
    title := "A Bad Paper"
    dateText := "No date"
    categories := ["cs.AI"]
    authors := "D. Author"
    abstract := "Broken."
    comments := "No comments" }

/-- An API entry published on 2025-08-01 whose categories are not all in
the "cs." namespace. -/
def api_entry_noncs : ApiEntry :=
  { url := "https://arxiv.org/abs/2508.00001"
    title := "Stat Paper"
    abstract := "A statistics paper."
    authors := ["E. Author"]
    published := some (dateOrdinal 2025 8 1)
    categories := ["stat.ML", "cs.LG"]
    comments := none }

/-! ## Theorems -/

theorem count_new_papers_eq_takeWhile (store : List Row) (papers : List Paper) :
    count_new_papers store papers
      = (papers.takeWhile (fun p => !url_in_db store p.url)).length := by
  induction papers with
  | nil => rfl
  | cons p rest ih =>
    by_cases h : url_in_db store p.url
    · simp [count_new_papers, List.takeWhile_cons, h]
    · simp [count_new_papers, List.takeWhile_cons, h, ih]

theorem count_new_papers_stops (store : List Row) (xs : List Paper)
    (p : Paper) (rest rest' : List Paper) (h : url_in_db store p.url = true) :
    count_new_papers store (xs ++ p :: rest)
      = count_new_papers store (xs ++ p :: rest') := by
  induction xs with
  | nil => simp [count_new_papers, h]
  | cons q t ih =>
    by_cases hq : url_in_db store q.url
    · simp [count_new_papers, hq]
    · simp [count_new_papers, hq, ih]

/-- C3: `count_new_papers` returns the length of the longest prefix of the
candidate sequence whose URLs are all absent from the store; it stops at the
first candidate whose URL is already present, and entries after that
position never affect the result. -/
theorem C3_count_new_papers (store : List Row) (papers : List Paper) :
    count_new_papers store papers
      = (papers.takeWhile (fun p => !url_in_db store p.url)).length
    ∧ (∀ (xs : List Paper) (p : Paper) (rest rest' : List Paper),
        url_in_db store p.url = true →
        count_new_papers store (xs ++ p :: rest)
          = count_new_papers store (xs ++ p :: rest')) := by
  refine ⟨count_new_papers_eq_takeWhile store papers, ?_⟩
  intro xs p rest rest' h
  exact count_new_papers_stops store xs p rest rest' h

theorem resolveRecs_eq_resolve_floor_go (nextDay : Int → Int) :
    ∀ (l : List Paper) (fl : Int),
      resolveRecs nextDay fl l = resolve_floor_go nextDay fl l := by
  intro l
  induction l with
  | nil => intro fl; rfl
  | cons p rest ih =>
    intro fl
    simp only [resolveRecs, resolve_floor_go, gt_iff_lt, ih]

/-- C1: `process_papers` implements exactly the spec's floor algorithm:
walking the stored fetch list in reverse, with the floor initialized to
`next_announcement_day(first_possible_day)`, the candidate computed as
`next_announcement_day(submitted + 1 day)`, the floor advanced exactly when
the candidate exceeds it, and the current floor assigned to each record. -/
theorem C1_process_papers_floor (nextDay : Int → Int) (firstPossible : Int)
    (papers : List Paper) :
    process_papers nextDay firstPossible papers
      = resolve_floor nextDay firstPossible papers.reverse := by
  unfold process_papers resolve_floor
  exact resolveRecs_eq_resolve_floor_go nextDay papers.reverse (nextDay firstPossible)

theorem resolveRecs_ann_ge (nextDay : Int → Int) :
    ∀ (l : List Paper) (fl : Int) (p : Paper),
      p ∈ resolveRecs nextDay fl l →
      ∃ a, p.first_announced_date = some a ∧ fl ≤ a := by
  intro l
  induction l with
  | nil => intro fl p hp; simp [resolveRecs] at hp
  | cons q rest ih =>
    intro fl p hp
    simp only [resolveRecs, List.mem_cons] at hp
    rcases hp with hp | hp
    · refine ⟨if fl < nextDay (q.first_submitted_date + 1)
          then nextDay (q.first_submitted_date + 1) else fl, ?_, ?_⟩
      · rw [hp]
      · split <;> omega
    · obtain ⟨a, ha, hle⟩ := ih _ p hp
      refine ⟨a, ha, ?_⟩
      have : fl ≤ if fl < nextDay (q.first_submitted_date + 1)
          then nextDay (q.first_submitted_date + 1) else fl := by
        split <;> omega
      omega

theorem resolveRecs_pairwise (nextDay : Int → Int) :
    ∀ (l : List Paper) (fl : Int),
      List.Pairwise
        (fun p q : Paper =>
          p.first_announced_date.getD 0 ≤ q.first_announced_date.getD 0)
        (resolveRecs nextDay fl l) := by
  intro l
  induction l with
  | nil => intro fl; simp [resolveRecs]
  | cons q rest ih =>
    intro fl
    simp only [resolveRecs]
    refine List.Pairwise.cons ?_ (ih _)
    intro p hp
    obtain ⟨a, ha, hle⟩ := resolveRecs_ann_ge nextDay rest _ p hp
    simp [ha]
    omega

/-- C2: for every record sequence and every announcement-day function, the
dates assigned by `process_papers` are all non-null and non-decreasing along
the processing order (the reverse of the stored fetch order). -/
theorem C2_process_papers_monotone (nextDay : Int → Int)
    (firstAnnounced : Int) (papers : List Paper) :
    (∀ p ∈ process_papers nextDay firstAnnounced papers,
        p.first_announced_date.isSome = true)
    ∧ List.Pairwise
        (fun p q : Paper =>
          p.first_announced_date.getD 0 ≤ q.first_announced_date.getD 0)
        (process_papers nextDay firstAnnounced papers) := by
  constructor
  · intro p hp
    obtain ⟨a, ha, _⟩ := resolveRecs_ann_ge nextDay papers.reverse _ p hp
    simp [ha]
  · exact resolveRecs_pairwise nextDay papers.reverse _

theorem upsert_row_nodup (s : List Row) (r : Row)
    (h : (s.map (fun x => x.url)).Nodup) :
    ((upsert_row s r).map (fun x => x.url)).Nodup := by
  unfold upsert_row
  rw [List.map_append, List.nodup_append]
  refine ⟨(h.sublist ((List.filter_sublist s).map (fun x => x.url))), by simp, ?_⟩
  intro u hu
  simp only [List.mem_map, List.mem_filter] at hu
  obtain ⟨x, ⟨_, hx⟩, rfl⟩ := hu
  simp only [List.map_cons, List.map_nil, List.mem_singleton]
  intro hcontra
  rw [hcontra] at hx
  simp at hx

theorem upserts_nodup (now : Int) :
    ∀ (papers : List Paper) (store : List Row),
      (store.map (fun x => x.url)).Nodup →
      ((papers.foldl (fun s p => upsert_row s (paper_to_row p now)) store).map
        (fun x => x.url)).Nodup := by
  intro papers
  induction papers with
  | nil => intro store h; simpa using h
  | cons p rest ih =>
    intro store h
    simp only [List.foldl_cons]
    exact ih _ (upsert_row_nodup store (paper_to_row p now) h)

theorem upserts_keep_now (now : Int) (u : String) :
    ∀ (papers : List Paper) (store : List Row),
      (∃ r ∈ store, r.url = u ∧ r.update_time = now) →
      ∃ r ∈ papers.foldl (fun s p => upsert_row s (paper_to_row p now)) store,
        r.url = u ∧ r.update_time = now := by
  intro papers
  induction papers with
  | nil => intro store h; simpa using h
  | cons p rest ih =>
    intro store h
    simp only [List.foldl_cons]
    apply ih
    obtain ⟨r, hr, hurl, htime⟩ := h
    by_cases hcase : r.url = p.url
    · refine ⟨paper_to_row p now, by simp [upsert_row], ?_, rfl⟩
      have hpu : (paper_to_row p now).url = p.url := rfl
      rw [hpu, ← hcase, hurl]
    · refine ⟨r, ?_, hurl, htime⟩
      simp only [upsert_row, List.mem_append, List.mem_filter]
      left
      have hpu : (paper_to_row p now).url = p.url := rfl
      exact ⟨hr, by simp [hpu, hcase]⟩

theorem upserts_mem (now : Int) :
    ∀ (papers : List Paper) (store : List Row) (p : Paper), p ∈ papers →
      ∃ r ∈ papers.foldl (fun s q => upsert_row s (paper_to_row q now)) store,
        r.url = p.url ∧ r.update_time = now := by
  intro papers
  induction papers with
  | nil => intro store p hp; simp at hp
  | cons q rest ih =>
    intro store p hp
    rcases List.mem_cons.mp hp with rfl | hp
    · simp only [List.foldl_cons]
      apply upserts_keep_now
      exact ⟨paper_to_row p now, by simp [upsert_row], rfl, rfl⟩
    · simp only [List.foldl_cons]
      exact ih _ p hp

/-- C4: `add_papers` fails with the assertion (and leaves the store
unchanged) when some record has a null announcement date; otherwise it
insert-or-replaces every record keyed by URL — one row per URL is preserved
— and every written row carries the current wall-clock `update_time`. -/
theorem C4_add_papers (store : List Row) (papers : List Paper) (now : Int) :
    ((∃ p ∈ papers, p.first_announced_date = none) →
        add_papers store papers now = Except.error "AssertionError"
        ∧ run_add_papers store papers now = store)
    ∧ ((∀ p ∈ papers, p.first_announced_date ≠ none) →
        ∃ s', add_papers store papers now = Except.ok s'
          ∧ ((store.map (fun x => x.url)).Nodup →
              (s'.map (fun x => x.url)).Nodup)
          ∧ ∀ p ∈ papers, ∃ r ∈ s', r.url = p.url ∧ r.update_time = now) := by
  constructor
  · intro ⟨p, hp, hnone⟩
    have hall : papers.all (fun p => p.first_announced_date.isSome) = false := by
      rw [Bool.eq_false_iff]
      intro hb
      have := List.all_eq_true.mp hb p hp
      rw [hnone] at this
      simp at this
    constructor
    · simp [add_papers, hall]
    · simp [run_add_papers, add_papers, hall]
  · intro h
    have hall : papers.all (fun p => p.first_announced_date.isSome) = true := by
      simp only [List.all_eq_true]
      intro p hp
      have := h p hp
      cases hann : p.first_announced_date with
      | none => exact absurd hann this
      | some a => simp
    refine ⟨papers.foldl (fun s p => upsert_row s (paper_to_row p now)) store,
      by simp [add_papers, hall], ?_, ?_⟩
    · intro hnod
      exact upserts_nodup now papers store hnod
    · intro p hp
      exact upserts_mem now papers store p hp

/-- Witness for C4 at a concrete input: a single record with a null
announcement date makes `add_papers` raise and leave the store unchanged. -/
theorem C4_add_papers_witness :
    add_papers []
        [{ first_submitted_date := 10, title := "t", categories := ["cs.AI"],
           url := "u", authors := "a", abstract := "b", comments := "c" }] 5
      = Except.error "AssertionError"
    ∧ run_add_papers []
        [{ first_submitted_date := 10, title := "t", categories := ["cs.AI"],
           url := "u", authors := "a", abstract := "b", comments := "c" }] 5
      = [] :=
  (C4_add_papers [] _ 5).1
    ⟨_, List.mem_singleton.mpr rfl, rfl⟩

/-- C5: the keyword search returns exactly the stored rows satisfying the
required-keyword, optional-group and inclusive date-range conditions,
ordered by announcement date descending; in particular the record titled
"An LLM Agent Framework" matches required=["agent"],
optional=[["LLM","language model"]] and the record mentioning only "GPT"
does not. -/
theorem C5_search_papers_by_keywords :
    (∀ (store : List Row) (required : List String)
        (optional : List (List String)) (d1 d2 : Option Int),
      (∀ r, r ∈ search_papers_by_keywords store required optional d1 d2 ↔
          r ∈ store ∧ row_matches required optional d1 d2 r = true)
      ∧ List.Sorted byAnnouncedDesc
          (search_papers_by_keywords store required optional d1 d2))
    ∧ search_papers_by_keywords [agent_row, gpt_row] ["agent"]
        [["LLM", "language model"]] (some 0) (some 100) = [agent_row] := by
  constructor
  · intro store required optional d1 d2
    constructor
    · intro r
      unfold search_papers_by_keywords
      rw [List.Perm.mem_iff (List.perm_insertionSort byAnnouncedDesc _)]
      simp [List.mem_filter]
    · exact List.sorted_insertionSort byAnnouncedDesc _
  · decide

theorem listMax?_eq_none_iff (l : List Int) : listMax? l = none ↔ l = [] := by
  cases l with
  | nil => simp [listMax?]
  | cons a t => cases h : listMax? t <;> simp [listMax?, h]

theorem listMax?_mem : ∀ (l : List Int) (m : Int), listMax? l = some m → m ∈ l := by
  intro l
  induction l with
  | nil => intro m h; simp [listMax?] at h
  | cons a t ih =>
    intro m h
    cases ht : listMax? t with
    | none =>
      rw [listMax?, ht] at h
      simp at h
      simp [h]
    | some m' =>
      rw [listMax?, ht] at h
      simp at h
      by_cases hle : a ≤ m'
      · rw [if_pos hle] at h
        subst h
        exact List.mem_cons_of_mem a (ih m' ht)
      · rw [if_neg hle] at h
        simp [h]

theorem listMax?_ub : ∀ (l : List Int) (m : Int), listMax? l = some m →
    ∀ a ∈ l, a ≤ m := by
  intro l
  induction l with
  | nil => intro m _ a ha; simp at ha
  | cons b t ih =>
    intro m h a ha
    cases ht : listMax? t with
    | none =>
      rw [listMax?, ht] at h
      simp at h
      have : t = [] := (listMax?_eq_none_iff t).mp ht
      subst this
      simp at ha
      omega
    | some m' =>
      rw [listMax?, ht] at h
      simp at h
      rcases List.mem_cons.mp ha with rfl | hat
      · subst h; split <;> omega
      · have := ih m' ht a hat
        subst h; split <;> omega

/-- C10: `newest_update_time` is partial — on an empty store the aggregate
is NULL and the code raises (so `fetch_update` fails on a fresh store);
on a non-empty store it returns the maximum `update_time` among the rows
whose announcement date equals the store-wide maximum announcement date. -/
theorem C10_newest_update_time (nextDay : Int → Int) :
    newest_update_time [] = none
    ∧ fetch_update_search_from nextDay [] = none
    ∧ ∀ store : List Row, store ≠ [] →
        ∃ m t, listMax? (store.map (fun r => r.first_announced_date)) = some m
          ∧ newest_update_time store = some t
          ∧ (∃ r ∈ store, r.first_announced_date = m ∧ r.update_time = t)
          ∧ (∀ r ∈ store, r.first_announced_date = m → r.update_time ≤ t)
          ∧ fetch_update_search_from nextDay store = some (nextDay t) := by
  refine ⟨rfl, rfl, ?_⟩
  intro store hne
  have hmapne : store.map (fun r => r.first_announced_date) ≠ [] := by
    simpa using hne
  cases hm : listMax? (store.map (fun r => r.first_announced_date)) with
  | none => exact absurd ((listMax?_eq_none_iff _).mp hm) (by simpa using hne)
  | some m =>
    have hmmem := listMax?_mem _ m hm
    obtain ⟨r0, hr0, hr0m⟩ := List.mem_map.mp hmmem
    have hr0f : r0 ∈ store.filter (fun r => r.first_announced_date == m) := by
      simp [List.mem_filter, hr0, hr0m]
    cases htt : listMax? ((store.filter
        (fun r => r.first_announced_date == m)).map (fun r => r.update_time)) with
    | none =>
      have : (store.filter (fun r => r.first_announced_date == m)).map
          (fun r => r.update_time) = [] := (listMax?_eq_none_iff _).mp htt
      rw [List.map_eq_nil_iff] at this
      rw [this] at hr0f
      simp at hr0f
    | some t =>
      have htmem := listMax?_mem _ t htt
      obtain ⟨r1, hr1, hr1t⟩ := List.mem_map.mp htmem
      have hr1' := List.mem_filter.mp hr1
      have hnu : newest_update_time store = some t := by
        unfold newest_update_time
        rw [hm]
        exact htt
      refine ⟨m, t, rfl, hnu, ?_, ?_, ?_⟩
      · exact ⟨r1, hr1'.1, by simpa using hr1'.2, hr1t⟩
      · intro r hr hrm
        apply listMax?_ub _ t htt
        exact List.mem_map.mpr ⟨r, List.mem_filter.mpr ⟨hr, by simp [hrm]⟩, rfl⟩
      · simp [fetch_update_search_from, hnu]

/-- Witness for C10 at a concrete input: a two-row store whose newest
announcement day is shared; the later write time is returned. -/
theorem C10_newest_update_time_witness :
    ∃ m t, listMax? ([agent_row, gpt_row].map (fun r => r.first_announced_date))
        = some m
      ∧ newest_update_time [agent_row, gpt_row] = some t
      ∧ (∃ r ∈ [agent_row, gpt_row],
          r.first_announced_date = m ∧ r.update_time = t)
      ∧ (∀ r ∈ [agent_row, gpt_row],
          r.first_announced_date = m → r.update_time ≤ t)
      ∧ fetch_update_search_from (fun d => d + 1) [agent_row, gpt_row]
          = some (t + 1) :=
  (C10_newest_update_time (fun d => d + 1)).2.2 [agent_row, gpt_row]
    (by decide)

/-- Witness for C3 at a concrete input: positions 0-2 absent, position 3
present; the result is 3 and ignores everything after position 3. -/
theorem C3_count_new_papers_witness :
    count_new_papers [paper_to_row (mkPaper "u3") 0]
        [mkPaper "u0", mkPaper "u1", mkPaper "u2", mkPaper "u3",
         mkPaper "u4", mkPaper "u5"] = 3
    ∧ count_new_papers [paper_to_row (mkPaper "u3") 0]
        ([mkPaper "u0", mkPaper "u1", mkPaper "u2"] ++ mkPaper "u3"
          :: [mkPaper "u4", mkPaper "u5"])
      = count_new_papers [paper_to_row (mkPaper "u3") 0]
        ([mkPaper "u0", mkPaper "u1", mkPaper "u2"] ++ mkPaper "u3" :: []) :=
  ⟨by decide,
   (C3_count_new_papers [paper_to_row (mkPaper "u3") 0] []).2
     [mkPaper "u0", mkPaper "u1", mkPaper "u2"] (mkPaper "u3")
     [mkPaper "u4", mkPaper "u5"] [] (by decide)⟩

/-- Witness for C5 at the spec's boolean-filter scenario. -/
theorem C5_search_papers_by_keywords_witness :
    agent_row ∈ search_papers_by_keywords [agent_row, gpt_row] ["agent"]
        [["LLM", "language model"]] (some 0) (some 100)
      ↔ agent_row ∈ [agent_row, gpt_row]
        ∧ row_matches ["agent"] [["LLM", "language model"]]
            (some 0) (some 100) agent_row = true :=
  ((C5_search_papers_by_keywords.1 [agent_row, gpt_row] ["agent"]
      [["LLM", "language model"]] (some 0) (some 100)).1 agent_row)

theorem effective_date_from_diag (d : Int) : effective_date_from d d = d - 4 := by
  simp [effective_date_from]

/-- C6 counterexample: with the single-day window 2025-08-01 → 2025-08-01,
a paper submitted 2025-07-29 (inside the 4-day look-back margin, strictly
before the requested day) is kept by the post-fetch filter and handed to
the store — it is not "filtered back to exactly the originally requested
single day". -/
theorem C6_counterexample :
    fetch_all_api [lookback_paper] (dateOrdinal 2025 8 1) (dateOrdinal 2025 8 1)
      = some { persisted := [lookback_paper], papers := [lookback_paper] }
    ∧ lookback_paper.first_submitted_date < dateOrdinal 2025 8 1 := by
  constructor
  · decide
  · decide

/-- C6 (amended): a single-day window widens the effective lower bound by
exactly 4 days (2025-08-01 → 2025-07-28), and the post-fetch filter uses
the *widened* bound: the kept-and-persisted records are exactly those
submitted in the widened window, so look-back records are retained. -/
theorem C6_fetch_all_api_lookback :
    effective_date_from (dateOrdinal 2025 8 1) (dateOrdinal 2025 8 1)
      = dateOrdinal 2025 7 28
    ∧ (∀ d : Int, effective_date_from d d = d - 4)
    ∧ (∀ (fetched : List Paper) (d : Int) (res : ApiFetchResult),
        fetch_all_api fetched d d = some res →
          res.persisted = fetched.filter (fun p =>
            decide (d - 4 ≤ p.first_submitted_date)
              && decide (p.first_submitted_date ≤ d))
          ∧ res.papers = res.persisted.filter cs_only) := by
  refine ⟨by decide, effective_date_from_diag, ?_⟩
  intro fetched d res h
  unfold fetch_all_api at h
  rw [if_neg (by omega : ¬(d - d > 31)), effective_date_from_diag] at h
  simp only [Option.some.injEq] at h
  subst h
  exact ⟨rfl, rfl⟩

/-- Witness for the amended C6 at a concrete input. -/
theorem C6_fetch_all_api_lookback_witness :
    ({ persisted := [lookback_paper], papers := [lookback_paper] }
        : ApiFetchResult).persisted
      = [lookback_paper].filter (fun p =>
          decide (dateOrdinal 2025 8 1 - 4 ≤ p.first_submitted_date)
            && decide (p.first_submitted_date ≤ dateOrdinal 2025 8 1))
    ∧ ({ persisted := [lookback_paper], papers := [lookback_paper] }
        : ApiFetchResult).papers
      = ({ persisted := [lookback_paper], papers := [lookback_paper] }
          : ApiFetchResult).persisted.filter cs_only :=
  (C6_fetch_all_api_lookback).2.2 [lookback_paper] (dateOrdinal 2025 8 1)
    { persisted := [lookback_paper], papers := [lookback_paper] } (by decide)

theorem request_go_eq_none_iff {α : Type} (tries : Nat → Option α) :
    ∀ (fuel i : Nat), request_go tries i fuel = none
      ↔ ∀ k, i ≤ k → k < i + fuel → tries k = none := by
  intro fuel
  induction fuel with
  | zero =>
    intro i
    constructor
    · intro _ k h1 h2; omega
    · intro _; rfl
  | succ f ih =>
    intro i
    rw [request_go]
    cases hti : tries i with
    | some v =>
      constructor
      · intro h; exact Option.noConfusion h
      · intro h
        have := h i (le_refl i) (by omega)
        rw [hti] at this
        exact Option.noConfusion this
    | none =>
      rw [ih (i + 1)]
      constructor
      · intro h k hk1 hk2
        by_cases hik : k = i
        · subst hik; exact hti
        · exact h k (by omega) (by omega)
      · intro h k hk1 hk2
        exact h k (by omega) (by omega)

theorem request_eq_none_iff {α : Type} (tries : Nat → Option α) :
    request tries = none ↔ ∀ k < 4, tries k = none := by
  rw [request, request_go_eq_none_iff tries 4 0]
  constructor
  · intro h k hk
    exact h k (Nat.zero_le k) (by omega)
  · intro h k _ hk
    exact h k (by omega)

/-- C7 counterexample: a first page that keeps failing on transport errors
aborts the entire multi-page fetch — nothing is collected even though the
page at offset 50 succeeds with a paper. -/
theorem C7_counterexample :
    fetch_all (fun s => request (failing_transport s)) 100 50 = none
    ∧ request (failing_transport 50)
      = some [mkPaper "https://arxiv.org/abs/2408.00042"] :=
  ⟨rfl, rfl⟩

/-- C7 (amended): every page request makes at most 4 attempts (one initial
plus 3 retries) and fails exactly when all 4 attempts fail; a non-first
page whose retries are exhausted contributes zero records while the fetch
of the remaining pages continues, but a first page whose retries are
exhausted aborts the whole multi-page fetch. -/
theorem C7_fetch_all_retry (transport : Nat → Nat → Option (List Paper))
    (total step : Nat) :
    (∀ s, request (transport s) = none ↔ ∀ k < 4, transport s k = none)
    ∧ (request (transport 0) = none →
        fetch_all (fun s => request (transport s)) total step = none)
    ∧ (∀ first, request (transport 0) = some first →
        fetch_all (fun s => request (transport s)) total step
          = some (first ++ ((page_starts total step).map
              (fun s => (request (transport s)).getD [])).flatten)) := by
  refine ⟨fun s => request_eq_none_iff (transport s), ?_, ?_⟩
  · intro h
    simp only [fetch_all, h]
  · intro first h
    simp only [fetch_all, h]

/-- Witness for the amended C7 at a concrete transport. -/
theorem C7_fetch_all_retry_witness :
    fetch_all (fun s => request (ok_transport s)) 100 50
      = some ([] ++ ((page_starts 100 50).map
          (fun s => (request (ok_transport s)).getD [])).flatten) :=
  (C7_fetch_all_retry ok_transport 100 50).2.2 [] rfl

set_option maxRecDepth 100000 in
/-- C8 counterexample: a page holding one well-formed entry and one entry
whose date fragment parses under neither layout makes `parse_search_html`
raise for the whole page — the well-formed entry is not returned, although
alone it parses fine. -/
theorem C8_counterexample :
    parse_search_html [good_entry, bad_entry] = Except.error "ValueError"
    ∧ parse_search_html [good_entry]
      = Except.ok [entry_to_paper good_entry (dateOrdinal 2024 8 8)] :=
  ⟨rfl, rfl⟩

/-- C8 (amended): when every entry's date fragment parses, the whole page
parses into one record per entry; but any entry with an unparseable date
fragment makes `parse_search_html` abort the entire page with an error —
the malformed entry is not skipped individually. -/
theorem C8_parse_search_html_aborts (entries : List SearchEntry) :
    ((∀ e ∈ entries,
        (strptime_d_B_Y (extract_date_text e.dateText)).isSome = true) →
      ∃ ps, parse_search_html entries = Except.ok ps
        ∧ ps.length = entries.length)
    ∧ ((∃ e ∈ entries,
          strptime_d_B_Y (extract_date_text e.dateText) = none) →
        parse_search_html entries = Except.error "ValueError") := by
  induction entries with
  | nil =>
    constructor
    · intro _; exact ⟨[], rfl, rfl⟩
    · intro ⟨e, he, _⟩; simp at he
  | cons e rest ih =>
    constructor
    · intro h
      have he := h e (List.mem_cons_self e rest)
      obtain ⟨d, hd⟩ := Option.isSome_iff_exists.mp he
      obtain ⟨ps, hps, hlen⟩ :=
        ih.1 (fun x hx => h x (List.mem_cons_of_mem e hx))
      refine ⟨entry_to_paper e d :: ps, ?_, by simp [hlen]⟩
      simp only [parse_search_html, hd, hps]
    · intro ⟨x, hx, hnone⟩
      rcases List.mem_cons.mp hx with rfl | hx'
      · simp only [parse_search_html, hnone]
      · cases he : strptime_d_B_Y (extract_date_text e.dateText) with
        | none => simp only [parse_search_html, he]
        | some d =>
          have hrest := ih.2 ⟨x, hx', hnone⟩
          simp only [parse_search_html, he, hrest]

set_option maxRecDepth 100000 in
/-- Witness for the amended C8: a page whose single entry parses yields
exactly one record. -/
theorem C8_parse_search_html_aborts_witness :
    ∃ ps, parse_search_html [good_entry] = Except.ok ps
      ∧ ps.length = ([good_entry] : List SearchEntry).length :=
  (C8_parse_search_html_aborts [good_entry]).1 (by decide)

/-- C9: on the API path every parsed record gets `first_announced_date`
equal to its `first_submitted_date` (the announcement-day rule is never
consulted), and `fetch_all_api` hands the date-filtered list to the store
*before* the cs-only category filter, so persisted records need not be
cs-only: a persisted record failing the cs-only test is absent from the
in-memory result yet present in what was persisted. -/
theorem C9_api_mode (now : Int) (entries : List ApiEntry) (d1 d2 : Int) :
    (∀ p ∈ parse_api_xml now entries,
      p.first_announced_date = some p.first_submitted_date)
    ∧ (∀ res, fetch_all_api (parse_api_xml now entries) d1 d2 = some res →
        res.persisted = (parse_api_xml now entries).filter (fun p =>
          decide (effective_date_from d1 d2 ≤ p.first_submitted_date)
            && decide (p.first_submitted_date ≤ d2))
        ∧ res.papers = res.persisted.filter cs_only
        ∧ ∀ p ∈ res.persisted, cs_only p = false → p ∉ res.papers) := by
  constructor
  · intro p hp
    obtain ⟨e, _, rfl⟩ := List.mem_map.mp hp
    rfl
  · intro res h
    unfold fetch_all_api at h
    by_cases hc : d2 - d1 > 31
    · rw [if_pos hc] at h
      exact Option.noConfusion h
    · rw [if_neg hc] at h
      simp only [Option.some.injEq] at h
      subst h
      refine ⟨rfl, rfl, ?_⟩
      intro p _ hcs hmem
      have hpt := (List.mem_filter.mp hmem).2
      rw [hcs] at hpt
      exact Bool.noConfusion hpt

/-- Witness for C9 at a concrete input: an entry published 2025-08-01 with
a non-cs category is persisted by a 2025-08-01 single-day API fetch but
dropped from the in-memory list. -/
theorem C9_api_mode_witness :
    ({ persisted := [parse_api_entry 0 api_entry_noncs], papers := [] }
        : ApiFetchResult).persisted
      = (parse_api_xml 0 [api_entry_noncs]).filter (fun p =>
          decide (effective_date_from (dateOrdinal 2025 8 1)
              (dateOrdinal 2025 8 1) ≤ p.first_submitted_date)
            && decide (p.first_submitted_date ≤ dateOrdinal 2025 8 1))
    ∧ ({ persisted := [parse_api_entry 0 api_entry_noncs], papers := [] }
        : ApiFetchResult).papers
      = ({ persisted := [parse_api_entry 0 api_entry_noncs], papers := [] }
          : ApiFetchResult).persisted.filter cs_only
    ∧ ∀ p ∈ ({ persisted := [parse_api_entry 0 api_entry_noncs], papers := [] }
        : ApiFetchResult).persisted,
        cs_only p = false →
        p ∉ ({ persisted := [parse_api_entry 0 api_entry_noncs], papers := [] }
          : ApiFetchResult).papers :=
  (C9_api_mode 0 [api_entry_noncs] (dateOrdinal 2025 8 1)
      (dateOrdinal 2025 8 1)).2
    { persisted := [parse_api_entry 0 api_entry_noncs], papers := [] }
    (by decide)
